import Mathlib

/-!
Verification development for the EMS event-invitation manager.

The definitions below are a shallow embedding of the repository's core logic:

* the scan validator `handleScan` from the Scanner page (src/unnamed/part_002);
* the invitation dispatcher `handleSendEmails` and its pass query `fetchPasses`
  from the email page (src/unnamed/part_001);
* event deletion `handleDeleteEvent` from the Events page (src/unnamed/part_003);
* bulk guest import `handleBulkImport` from src/src/pages/Guests.tsx;
* the code generator `generateUniqueCode` from src/src/utils/qrGenerator.ts;
* JavaScript `String.prototype.replace` with a string pattern (first occurrence
  only), used for the `\x7bNAME\x7d` placeholder substitution.

Firestore documents become Lean structures; `serverTimestamp()` becomes an
explicit `now : Nat` parameter; the external mail-send capability becomes a
function `send : Pass → Option String` returning `none` on success and the
thrown error message on failure; `Math.random()` sampling becomes an explicit
list of sampled indices.
-/

namespace EMS

/-- A document of the `passes` collection (type `Pass` in the repository's
type definitions).  `sent_at`, `scanned_at` are timestamps that are absent
(`none`) until set; `scanned_by` is absent until the first valid scan. -/
structure Pass where
  id : String
  event_id : String
  code : String
  guest_name : String
  guest_email : String
  sent_at : Option Nat
  used : Bool
  scanned_at : Option Nat
  scanned_by : Option String
deriving DecidableEq

/-- Classification of a scan attempt (the `status` field of a scan log). -/
inductive ScanStatus where
  | valid
  | already_used
  | invalid
deriving DecidableEq

/-- A document of the `scan_logs` collection, as written by `handleScan`
(src/unnamed/part_002 lines 168-178). -/
structure ScanLog where
  pass_id : Option String
  scanned_code : String
  scanner_id : String
  status : ScanStatus
  event_id : Option String
  guest_name : Option String
  scanned_at : Nat
deriving DecidableEq

/-- A document of the `events` collection (fields the claims need). -/
structure EventDoc where
  id : String
  admin_id : String
  title : String
deriving DecidableEq

/-- A document of the `email_logs` collection, as written by
`handleSendEmails` (src/unnamed/part_001 lines 441-449 and 497-506).
`logged_at` is the log entry's own `sent_at: serverTimestamp()` field. -/
structure EmailLog where
  pass_id : String
  event_id : String
  recipient_email : String
  subject : String
  status : String
  error_message : Option String
  logged_at : Nat
deriving DecidableEq

/-- The slice of the document store the scan validator touches: the `passes`
collection (read and written), the `events` collection (read only, for the
event title) and the append-only `scan_logs` collection. -/
structure ScanState where
  passes : List Pass
  events : List EventDoc
  scan_logs : List ScanLog
deriving DecidableEq

/-- The on-screen `ScanResult` built by `handleScan` (src/unnamed/part_002
lines 10-16 and 184-190): `scannedAt` is only populated in the
`already_used` branch, where it carries the pass's previous `scanned_at`. -/
structure ScanOutcome where
  status : ScanStatus
  guestName : Option String
  scannedAt : Option Nat
deriving DecidableEq

/-- JavaScript `s || null` on a string field: the empty string is falsy. -/
def jsOr (s : String) : Option String :=
  if s = "" then none else some s

/-- The Firestore query `where('code', '==', code), limit(1)`
(src/unnamed/part_002 lines 99-101): the first pass whose `code` equals the
scanned string, if any. -/
def findPass (passes : List Pass) (code : String) : Option Pass :=
  passes.find? (fun p => p.code == code)

/-- The `updateDoc` of src/unnamed/part_002 lines 153-158: the pass document
with the matching id gets `used = true`, `scanned_at = now`,
`scanned_by = uid`; every other document is untouched. -/
def markUsed (now : Nat) (uid : String) (passId : String) (passes : List Pass) : List Pass :=
  passes.map (fun q =>
    if q.id == passId then
      { q with used := true, scanned_at := some now, scanned_by := some uid }
    else q)

/-- The scan log entry appended for every attempt (src/unnamed/part_002
lines 168-178); `pass` is the looked-up pass, if any. -/
def mkScanLog (pass : Option Pass) (code uid : String) (status : ScanStatus)
    (now : Nat) : ScanLog :=
  { pass_id := pass.map Pass.id
    scanned_code := code
    scanner_id := uid
    status := status
    event_id := (pass.map Pass.event_id).bind jsOr
    guest_name := (pass.map Pass.guest_name).bind jsOr
    scanned_at := now }

/-- The scan validator `handleScan` of src/unnamed/part_002 lines 97-190:
look up the first pass with the scanned code; if none, classify `invalid`;
if the pass is `used` or has `scanned_at` set, classify `already_used`
without mutating the pass (the displayed result carries the previous
`scanned_at`); otherwise classify `valid` and mark the pass used.  In every
case exactly one scan log entry is appended. -/
def handleScan (s : ScanState) (code uid : String) (now : Nat) :
    ScanState × ScanOutcome :=
  match findPass s.passes code with
  | none =>
      ({ s with scan_logs := s.scan_logs ++ [mkScanLog none code uid .invalid now] },
       { status := .invalid, guestName := none, scannedAt := none })
  | some p =>
      if p.used || p.scanned_at.isSome then
        ({ s with
            scan_logs := s.scan_logs ++ [mkScanLog (some p) code uid .already_used now] },
         { status := .already_used, guestName := some p.guest_name,
           scannedAt := p.scanned_at })
      else
        ({ passes := markUsed now uid p.id s.passes
           events := s.events
           scan_logs := s.scan_logs ++ [mkScanLog (some p) code uid .valid now] },
         { status := .valid, guestName := some p.guest_name, scannedAt := none })

/-- The read phase of `handleScan`: the classification is computed entirely
from the state at the time of the Firestore `getDocs` read
(src/unnamed/part_002 lines 127-148). -/
def classifyScan (s : ScanState) (code : String) : ScanStatus :=
  match findPass s.passes code with
  | none => .invalid
  | some p => if p.used || p.scanned_at.isSome then .already_used else .valid

/-- The write phase of `handleScan`: the pass update and the log append,
driven by the snapshot `readState` that the scan's read phase observed,
applied to the (possibly different) current store `current`.  Running read
and write back-to-back on the same state is exactly `handleScan`; two
interleaved scans each read first and write later. -/
def applyScanWrite (readState current : ScanState) (code uid : String)
    (now : Nat) : ScanState :=
  match findPass readState.passes code with
  | none =>
      { current with scan_logs := current.scan_logs ++ [mkScanLog none code uid .invalid now] }
  | some p =>
      if p.used || p.scanned_at.isSome then
        { current with
            scan_logs := current.scan_logs ++ [mkScanLog (some p) code uid .already_used now] }
      else
        { passes := markUsed now uid p.id current.passes
          events := current.events
          scan_logs := current.scan_logs ++ [mkScanLog (some p) code uid .valid now] }

/-- Two concurrent scans of the same code under the schedule
read₁, read₂, write₁, write₂: both classifications are computed from the
initial state `s` because neither write has landed when the other scan
reads (spec §4.2: lookup, compare and update are not one atomic unit).
Returns both classifications and the final store. -/
def interleavedScans (s : ScanState) (code uid1 uid2 : String)
    (t1 t2 : Nat) : ScanStatus × ScanStatus × ScanState :=
  let c1 := classifyScan s code
  let c2 := classifyScan s code
  let s1 := applyScanWrite s s code uid1 t1
  let s2 := applyScanWrite s s1 code uid2 t2
  (c1, c2, s2)

/-! ### Code generator (src/src/utils/qrGenerator.ts lines 3-10) -/

/-- The generator's alphabet, exactly the string literal `chars` of
`generateUniqueCode`. -/
def chars : String := "ABCDEFGHIJKLMNOPQRSTUVWXYZ0123456789@#$%&*"

/-- JavaScript `s.charAt(k)`: the one-character string at index `k`, or the
empty string when `k` is out of range. -/
def charAt (s : String) (k : Nat) : String :=
  match s.data[k]? with
  | some c => ⟨[c]⟩
  | none => ""

/-- The loop body of `generateUniqueCode`: starting from the empty string,
append `chars.charAt(kᵢ)` for each sampled index `kᵢ`.  The source samples
`Math.floor(Math.random() * chars.length)` six times; `rs` is the list of
those six sampled indices, each below `chars.length` because
`Math.random()` lies in `[0, 1)`. -/
def genCodeAux : List Nat → String
  | [] => ""
  | k :: ks => charAt chars k ++ genCodeAux ks

/-- `generateUniqueCode(prefix)` of src/src/utils/qrGenerator.ts: the prefix,
a dash, then the six sampled characters. -/
def generateUniqueCode (pfx : String) (rs : List Nat) : String :=
  pfx ++ "-" ++ genCodeAux rs

/-! ### Invitation dispatcher (src/unnamed/part_001) -/

/-! #### Executable JavaScript string primitives

The JavaScript string operations the source uses (`split`, `trim`,
`toLowerCase`, `includes`, `replace`) are modelled over the character list
of a `String`, so that every definition reduces definitionally and concrete
runs can be checked by `decide`. -/

/-- JavaScript `s.split(sep)` for a single-character separator (the source
only ever splits on `','` and `'\n'`). -/
def splitOnChar (sep : Char) : List Char → List (List Char)
  | [] => [[]]
  | c :: rest =>
      let r := splitOnChar sep rest
      if c = sep then [] :: r
      else
        match r with
        | [] => [[c]]
        | seg :: segs => (c :: seg) :: segs

/-- JavaScript `s.trim()` on a character list: strip whitespace from both
ends. -/
def trimL (l : List Char) : List Char :=
  ((l.dropWhile Char.isWhitespace).reverse.dropWhile Char.isWhitespace).reverse

/-- JavaScript `s.trim()`. -/
def jsTrim (s : String) : String :=
  ⟨trimL s.data⟩

/-- JavaScript `s.toLowerCase()` (ASCII, which covers every string the
source compares). -/
def jsToLower (s : String) : String :=
  ⟨s.data.map Char.toLower⟩

/-- `sub` starts at some position of `l`. -/
def hasInfix (sub : List Char) : List Char → Bool
  | [] => sub.isEmpty
  | c :: rest => sub.isPrefixOf (c :: rest) || hasInfix sub rest

/-- `sub` occurs somewhere in `s` (JavaScript `s.includes(sub)`). -/
def containsSubstr (s sub : String) : Bool :=
  hasInfix sub.data s.data

/-- The failure classification of src/unnamed/part_001 lines 457-462: the
error message is lowercased and matched against the recipient-related
substrings; matches are `invalid`, everything else is `failed`. -/
def classifyFailure (msg : String) : String :=
  if containsSubstr (jsToLower msg) "address not found"
      || containsSubstr (jsToLower msg) "invalid"
      || containsSubstr (jsToLower msg) "recipient address rejected" then
    "invalid"
  else
    "failed"

/-- One iteration of the dispatcher loop (src/unnamed/part_001 lines
373-514) for pass `p`.  `send p = none` models a successful
`sendGmail`; `send p = some msg` models a throw with message `msg`.
On success the pass gets `sent_at = now` and a `sent` log entry; on
failure the pass is untouched and the log entry carries the classified
status and the raw error message.  (The optional Google-Sheet write-back
is an external side channel whose failures are swallowed and which never
changes a pass or a log; it is not modelled.) -/
def processPass (send : Pass → Option String) (eventId subject : String)
    (now : Nat) (p : Pass) : Pass × EmailLog :=
  match send p with
  | none =>
      ({ p with sent_at := some now },
       { pass_id := p.id, event_id := eventId, recipient_email := p.guest_email,
         subject := subject, status := "sent", error_message := none,
         logged_at := now })
  | some msg =>
      (p,
       { pass_id := p.id, event_id := eventId, recipient_email := p.guest_email,
         subject := subject, status := classifyFailure msg,
         error_message := some msg, logged_at := now })

/-- The dispatcher loop `handleSendEmails` (src/unnamed/part_001 lines
345-519): the passes are processed strictly in order, one log entry per
pass, and a failure for one pass never aborts the loop — the remaining
passes are still processed.  Returns the updated passes and the appended
email log entries, in loop order. -/
def handleSendEmails (send : Pass → Option String) (eventId subject : String)
    (now : Nat) : List Pass → List Pass × List EmailLog
  | [] => ([], [])
  | p :: rest =>
      let pr := processPass send eventId subject now p
      let r := handleSendEmails send eventId subject now rest
      (pr.1 :: r.1, pr.2 :: r.2)

/-- `fetchPasses` of src/unnamed/part_001 lines 102-124: the Firestore query
keeps the passes of the selected event, and the subsequent JavaScript
filter `!pass.sent_at` keeps only those whose `sent_at` is unset.  The
dispatcher iterates exactly over this list. -/
def fetchPasses (selectedEventId : String) (passes : List Pass) : List Pass :=
  (passes.filter (fun p => p.event_id == selectedEventId)).filter
    (fun p => p.sent_at.isNone)

/-! ### Event deletion (src/unnamed/part_003 lines 78-90) -/

/-- The whole document store, for the deletion frame property. -/
structure Store where
  events : List EventDoc
  passes : List Pass
  scan_logs : List ScanLog
  email_logs : List EmailLog
deriving DecidableEq

/-- `handleDeleteEvent` of src/unnamed/part_003 lines 78-90: a single
`deleteDoc` on `events/eventId`.  No other collection is touched — there is
no cascade to `passes`, `scan_logs` or `email_logs`. -/
def handleDeleteEvent (st : Store) (eventId : String) : Store :=
  { st with events := st.events.filter (fun e => !(e.id == eventId)) }

/-! ### Bulk guest import (src/src/pages/Guests.tsx lines 112-154) -/

/-- One line of the bulk-import text area, parsed as in Guests.tsx lines
121-134: split on commas, trim each piece, destructure the first two pieces
as name and email (a missing piece is the empty string, like JavaScript
`undefined` under `if (name && email)`).  The line yields a guest only
when both the name and the email are nonempty. -/
def parseLine (line : String) : Option (String × String) :=
  let parts := ((splitOnChar ',' line.data).map trimL).map (fun l => (⟨l⟩ : String))
  let name := parts.getD 0 ("")
  let email := parts.getD 1 ("")
  if name ≠ "" ∧ email ≠ "" then some (name, email) else none

/-- The pass document created for one parsed guest line (Guests.tsx lines
124-131): `used: false`, no `sent_at`, no `scanned_at`, a freshly generated
code.  Firestore assigns the document id server-side (modelled as `""`). -/
def mkImportPass (eventId code name email : String) : Pass :=
  { id := "", event_id := eventId, code := code, guest_name := name,
    guest_email := email, sent_at := none, used := false,
    scanned_at := none, scanned_by := none }

/-- The line-by-line import walk: line `i` is parsed, and when it parses its
pass gets the code `gen i` (modelling the fresh `generateUniqueCode` call
for that line); unparseable lines are silently skipped. -/
def bulkGo (eventId : String) (gen : Nat → String) : Nat → List String → List Pass
  | _, [] => []
  | i, line :: rest =>
      match parseLine line with
      | some g => mkImportPass eventId (gen i) g.1 g.2 :: bulkGo eventId gen (i + 1) rest
      | none => bulkGo eventId gen (i + 1) rest

/-- `handleBulkImport` of Guests.tsx lines 112-154: trim the text area,
split into lines, and create one pass per parseable line. -/
def handleBulkImport (eventId : String) (gen : Nat → String) (text : String) :
    List Pass :=
  bulkGo eventId gen 0
    ((splitOnChar '\n' (jsTrim text).data).map (fun l => (⟨l⟩ : String)))

/-! ### Placeholder substitution (src/unnamed/part_001 line 398 and
src/src/utils/qrGenerator.ts line 331) -/

/-- JavaScript `s.replace(pat, rep)` with a string pattern, on character
lists: scan left to right; at the first position where `pat` matches,
splice in `rep` and keep the rest of the string untouched; if `pat` never
matches, return the string unchanged. -/
def replaceFirstL (pat rep : List Char) : List Char → List Char
  | [] => []
  | c :: rest =>
      if pat.isPrefixOf (c :: rest) then rep ++ (c :: rest).drop pat.length
      else c :: replaceFirstL pat rep rest

/-- The characters strictly before the first occurrence of `pat` (the whole
list when `pat` does not occur). -/
def beforeFirst (pat : List Char) : List Char → List Char
  | [] => []
  | c :: rest =>
      if pat.isPrefixOf (c :: rest) then []
      else c :: beforeFirst pat rest

/-- The characters strictly after the first occurrence of `pat` (`[]` when
`pat` does not occur). -/
def afterFirst (pat : List Char) : List Char → List Char
  | [] => []
  | c :: rest =>
      if pat.isPrefixOf (c :: rest) then (c :: rest).drop pat.length
      else afterFirst pat rest

/-- JavaScript `s.replace(pat, rep)` with a string pattern: only the first
occurrence of `pat` is replaced. -/
def replaceFirst (s pat rep : String) : String :=
  ⟨replaceFirstL pat.data rep.data s.data⟩

/-- The plain-text body of src/unnamed/part_001 line 398,
`message.replace('\x7bNAME\x7d', pass.guest_name)`.  The rendered HTML of
src/src/utils/qrGenerator.ts line 331 embeds the very same expression
between constant template text, so any surrounding context `pre`/`post`
covers it. -/
def renderBody (message guestName : String) : String :=
  replaceFirst message ("{NAME}") guestName

/-! ### Concrete fixtures (end-to-end scenarios of spec §8) -/

/-- A pass in `PENDING` state: never sent, never scanned. -/
def passA : Pass :=
  { id := "p1", event_id := "e1", code := "EVTX-AAAAAA", guest_name := "Ana",
    guest_email := "ana@x.com", sent_at := none, used := false,
    scanned_at := none, scanned_by := none }

/-- A pass already in `USED` state (scanned at time 3 by operator op0). -/
def passB : Pass :=
  { id := "p2", event_id := "e1", code := "EVTX-BBBBBB", guest_name := "Bob",
    guest_email := "bob@x.com", sent_at := none, used := true,
    scanned_at := some 3, scanned_by := some "op0" }

/-- A pass whose invitation already went out (`sent_at` set). -/
def passC : Pass :=
  { id := "p3", event_id := "e1", code := "EVTX-CCCCCC", guest_name := "Cyn",
    guest_email := "cyn@x.com", sent_at := some 7, used := false,
    scanned_at := none, scanned_by := none }

/-- A store holding the three fixture passes. -/
def stateA : ScanState :=
  { passes := [passA, passB, passC], events := [], scan_logs := [] }

/-- A full document store with one event and the fixture passes. -/
def storeA : Store :=
  { events := [{ id := "e1", admin_id := "adm", title := "Launch" },
               { id := "e2", admin_id := "adm", title := "Gala" }],
    passes := [passA, passB, passC],
    scan_logs := [], email_logs := [] }

/-- A mail capability that fails for Ana with the simulated
"Address not found" error of spec §8 scenario B and succeeds otherwise. -/
def sendSim (p : Pass) : Option String :=
  if p.id = "p1" then some ("Address not found - Invalid email address") else none

/-! ### Helper lemmas -/

theorem find?_eq_some_of_unique {α : Type} (pred : α → Bool) (l : List α) (a : α)
    (ha : a ∈ l) (hpa : pred a = true)
    (huniq : ∀ b ∈ l, pred b = true → b = a) :
    l.find? pred = some a := by
  induction l with
  | nil => cases ha
  | cons x xs ih =>
    by_cases hx : pred x = true
    · have hxa : x = a := huniq x (List.mem_cons_self x xs) hx
      rw [List.find?_cons_of_pos _ hx, hxa]
    · have hax : a ∈ xs := by
        rcases List.mem_cons.mp ha with h | h
        · exact absurd (h ▸ hpa) hx
        · exact h
      rw [List.find?_cons_of_neg _ hx]
      exact ih hax (fun b hb hpb => huniq b (List.mem_cons_of_mem _ hb) hpb)

/-- The classification of `handleScan` is computed entirely from the state
at read time, and its effect is exactly `applyScanWrite` of that same
state: `handleScan` is the read phase immediately followed by the write
phase. -/
theorem handleScan_eq_read_write (s : ScanState) (code uid : String) (now : Nat) :
    (handleScan s code uid now).1 = applyScanWrite s s code uid now ∧
    (handleScan s code uid now).2.status = classifyScan s code := by
  unfold handleScan applyScanWrite classifyScan
  cases findPass s.passes code with
  | none => exact ⟨rfl, rfl⟩
  | some p =>
    cases h : (p.used || p.scanned_at.isSome) <;> simp [h]

theorem handleSendEmails_lengths (send : Pass → Option String)
    (eventId subject : String) (now : Nat) (passes : List Pass) :
    (handleSendEmails send eventId subject now passes).1.length = passes.length ∧
    (handleSendEmails send eventId subject now passes).2.length = passes.length := by
  induction passes with
  | nil => exact ⟨rfl, rfl⟩
  | cons p rest ih =>
    simp only [handleSendEmails, List.length_cons]
    exact ⟨by rw [ih.1], by rw [ih.2]⟩

theorem handleSendEmails_fail_mem (send : Pass → Option String)
    (eventId subject : String) (now : Nat) (passes : List Pass) (p : Pass)
    (msg : String) (hp : p ∈ passes) (hfail : send p = some msg) :
    p ∈ (handleSendEmails send eventId subject now passes).1 ∧
    ∃ log ∈ (handleSendEmails send eventId subject now passes).2,
      log.pass_id = p.id ∧ log.status = classifyFailure msg ∧
      log.error_message = some msg := by
  induction passes with
  | nil => cases hp
  | cons x rest ih =>
    rcases List.mem_cons.mp hp with rfl | hmem
    · refine ⟨?_, ?_⟩
      · simp only [handleSendEmails, processPass, hfail]
        exact List.mem_cons_self _ _
      · refine ⟨(processPass send eventId subject now p).2, ?_, ?_⟩
        · simp only [handleSendEmails]
          exact List.mem_cons_self _ _
        · simp [processPass, hfail]
    · obtain ⟨h1, log, hlog, hprops⟩ := ih hmem
      refine ⟨?_, log, ?_, hprops⟩
      · simp only [handleSendEmails]
        exact List.mem_cons_of_mem _ h1
      · simp only [handleSendEmails]
        exact List.mem_cons_of_mem _ hlog

theorem handleSendEmails_log_src (send : Pass → Option String)
    (eventId subject : String) (now : Nat) (passes : List Pass) (log : EmailLog)
    (hlog : log ∈ (handleSendEmails send eventId subject now passes).2) :
    ∃ p ∈ passes, log.pass_id = p.id := by
  induction passes with
  | nil => cases hlog
  | cons x rest ih =>
    simp only [handleSendEmails] at hlog
    rcases List.mem_cons.mp hlog with rfl | hmem
    · refine ⟨x, List.mem_cons_self _ _, ?_⟩
      cases hx : send x <;> simp [processPass, hx]
    · obtain ⟨p, hp, hid⟩ := ih hmem
      exact ⟨p, List.mem_cons_of_mem _ hp, hid⟩

theorem bulkGo_length (eventId : String) (gen : Nat → String) :
    ∀ (i : Nat) (lines : List String),
      (bulkGo eventId gen i lines).length
        = (lines.filter (fun l => (parseLine l).isSome)).length := by
  intro i lines
  induction lines generalizing i with
  | nil => rfl
  | cons line rest ih =>
    cases h : parseLine line with
    | none => simp [bulkGo, List.filter, h, ih]
    | some g => simp [bulkGo, List.filter, h, ih]

theorem bulkGo_mem (eventId : String) (gen : Nat → String) :
    ∀ (i : Nat) (lines : List String) (p : Pass), p ∈ bulkGo eventId gen i lines →
      p.event_id = eventId ∧ p.used = false ∧ p.sent_at = none ∧
      p.scanned_at = none ∧ p.scanned_by = none := by
  intro i lines
  induction lines generalizing i with
  | nil => intro p hp; cases hp
  | cons line rest ih =>
    intro p hp
    cases h : parseLine line with
    | none =>
      rw [bulkGo, h] at hp
      exact ih _ p hp
    | some g =>
      rw [bulkGo, h] at hp
      rcases List.mem_cons.mp hp with rfl | hmem
      · exact ⟨rfl, rfl, rfl, rfl, rfl⟩
      · exact ih _ p hmem

theorem bulkGo_parse (eventId : String) (gen : Nat → String) :
    ∀ (i : Nat) (lines : List String) (line : String) (n e : String),
      line ∈ lines → parseLine line = some (n, e) →
      ∃ p ∈ bulkGo eventId gen i lines, p.guest_name = n ∧ p.guest_email = e := by
  intro i lines
  induction lines generalizing i with
  | nil => intro line n e h; cases h
  | cons x rest ih =>
    intro line n e hline hparse
    rcases List.mem_cons.mp hline with rfl | hmem
    · rw [bulkGo, hparse]
      exact ⟨mkImportPass eventId (gen i) n e, List.mem_cons_self _ _, rfl, rfl⟩
    · obtain ⟨p, hp, hprops⟩ := ih _ line n e hmem hparse
      cases h : parseLine x with
      | none => rw [bulkGo, h]; exact ⟨p, hp, hprops⟩
      | some g => rw [bulkGo, h]; exact ⟨p, List.mem_cons_of_mem _ hp, hprops⟩

theorem isPrefixOf_append_drop {p l : List Char} (h : p.isPrefixOf l = true) :
    l = p ++ l.drop p.length := by
  obtain ⟨t, rfl⟩ := List.isPrefixOf_iff_prefix.mp h
  rw [List.drop_left]

theorem replaceFirst_decomp (pat rep : List Char) (hpat : pat ≠ []) :
    ∀ l, hasInfix pat l = true →
      replaceFirstL pat rep l = beforeFirst pat l ++ rep ++ afterFirst pat l ∧
      l = beforeFirst pat l ++ pat ++ afterFirst pat l := by
  intro l h
  induction l with
  | nil =>
    rw [hasInfix] at h
    exact absurd (List.isEmpty_iff.mp h) hpat
  | cons c rest ih =>
    rw [hasInfix] at h
    by_cases hpre : pat.isPrefixOf (c :: rest) = true
    · rw [replaceFirstL, beforeFirst, afterFirst, if_pos hpre, if_pos hpre, if_pos hpre]
      exact ⟨rfl, by simpa using isPrefixOf_append_drop hpre⟩
    · have htail : hasInfix pat rest = true := by
        rcases Bool.or_eq_true_iff.mp h with h1 | h2
        · exact absurd h1 hpre
        · exact h2
      obtain ⟨ih1, ih2⟩ := ih htail
      rw [replaceFirstL, beforeFirst, afterFirst, if_neg hpre, if_neg hpre, if_neg hpre]
      exact ⟨by rw [ih1]; simp, by rw [List.cons_append, List.cons_append, ← ih2]⟩

theorem hasInfix_decomp (pat : List Char) (hpat : pat ≠ []) (l : List Char)
    (h : hasInfix pat l = true) : ∃ a b, l = a ++ pat ++ b :=
  ⟨beforeFirst pat l, afterFirst pat l, (replaceFirst_decomp pat [] hpat l h).2⟩

theorem genCodeAux_spec (rs : List Nat) (hlt : ∀ k ∈ rs, k < chars.length) :
    (genCodeAux rs).data.length = rs.length ∧
    ∀ c ∈ (genCodeAux rs).data, c ∈ chars.data := by
  induction rs with
  | nil => exact ⟨rfl, by intro c hc; cases hc⟩
  | cons k ks ih =>
    have hk : k < chars.data.length := hlt k (List.mem_cons_self _ _)
    have hks : ∀ j ∈ ks, j < chars.length :=
      fun j hj => hlt j (List.mem_cons_of_mem _ hj)
    obtain ⟨ih1, ih2⟩ := ih hks
    have hchar : charAt chars k = ⟨[chars.data[k]]⟩ := by
      rw [charAt, List.getElem?_eq_getElem hk]
    constructor
    · rw [genCodeAux, String.data_append, hchar, List.length_append, ih1]
      simp [Nat.add_comm]
    · intro c hc
      rw [genCodeAux, String.data_append, hchar] at hc
      rcases List.mem_append.mp hc with h1 | h2
      · rcases List.mem_singleton.mp h1 with rfl
        exact List.getElem_mem hk
      · exact ih2 c h2

/-! ### Claim theorems -/

/-- Claim C1: for every pass whose `used` flag is false and whose
`scanned_at` is unset, scanning that pass's code (under the spec §3
data-model invariant that a code is unique within the pass collection)
classifies the attempt `valid`, sets `used = true`, `scanned_at` to the
current time and `scanned_by` to the scanning operator's id, and appends
exactly one scan log entry with status `valid` referencing the pass. -/
theorem C1_valid_scan (s : ScanState) (p : Pass) (uid : String) (now : Nat)
    (hp : p ∈ s.passes) (hused : p.used = false) (hscan : p.scanned_at = none)
    (huniq : ∀ q ∈ s.passes, q.code = p.code → q = p) :
    (handleScan s p.code uid now).2.status = ScanStatus.valid ∧
    { p with used := true, scanned_at := some now, scanned_by := some uid }
        ∈ (handleScan s p.code uid now).1.passes ∧
    ∃ log, (handleScan s p.code uid now).1.scan_logs = s.scan_logs ++ [log] ∧
      log.status = ScanStatus.valid ∧ log.pass_id = some p.id := by
  have hfind : findPass s.passes p.code = some p := by
    apply find?_eq_some_of_unique _ _ p hp
    · simp
    · intro b hb hpb
      exact huniq b hb (by simpa using hpb)
  have hcond : (p.used || p.scanned_at.isSome) = false := by
    rw [hused, hscan]
    rfl
  refine ⟨?_, ?_, mkScanLog (some p) p.code uid .valid now, ?_, rfl, rfl⟩
  · simp only [handleScan, hfind, hcond, Bool.false_eq_true, if_false]
  · simp only [handleScan, hfind, hcond, Bool.false_eq_true, if_false, markUsed]
    have hmem := List.mem_map_of_mem
      (f := fun q : Pass => if q.id == p.id then
        { q with used := true, scanned_at := some now, scanned_by := some uid }
      else q) hp
    simpa using hmem
  · simp only [handleScan, hfind, hcond, Bool.false_eq_true, if_false]

/-- Witness for C1: scanning the `PENDING` fixture pass in the fixture
store grants entry and logs one `valid` entry for it. -/
theorem C1_valid_scan_witness :
    (handleScan stateA passA.code ("op1") 5).2.status = ScanStatus.valid ∧
    { passA with used := true, scanned_at := some 5, scanned_by := some "op1" }
        ∈ (handleScan stateA passA.code ("op1") 5).1.passes ∧
    ∃ log, (handleScan stateA passA.code ("op1") 5).1.scan_logs
        = stateA.scan_logs ++ [log] ∧
      log.status = ScanStatus.valid ∧ log.pass_id = some passA.id :=
  C1_valid_scan stateA passA ("op1") 5 (by decide) (by decide) (by decide) (by decide)

/-- Claim C2: for every pass with `used` true or `scanned_at` set, scanning
that pass's code (under the code-uniqueness invariant of spec §3)
classifies the attempt `already_used`, leaves every pass unchanged — in
particular `scanned_at` is never mutated a second time — and appends a
scan log entry referencing the pass, while the displayed result reports
the previous `scanned_at` timestamp. -/
theorem C2_already_used_scan (s : ScanState) (p : Pass) (uid : String) (now : Nat)
    (hp : p ∈ s.passes)
    (hused : p.used = true ∨ p.scanned_at ≠ none)
    (huniq : ∀ q ∈ s.passes, q.code = p.code → q = p) :
    (handleScan s p.code uid now).2.status = ScanStatus.already_used ∧
    (handleScan s p.code uid now).1.passes = s.passes ∧
    (handleScan s p.code uid now).2.scannedAt = p.scanned_at ∧
    ∃ log, (handleScan s p.code uid now).1.scan_logs = s.scan_logs ++ [log] ∧
      log.status = ScanStatus.already_used ∧ log.pass_id = some p.id := by
  have hfind : findPass s.passes p.code = some p := by
    apply find?_eq_some_of_unique _ _ p hp
    · simp
    · intro b hb hpb
      exact huniq b hb (by simpa using hpb)
  have hcond : (p.used || p.scanned_at.isSome) = true := by
    rcases hused with h | h
    · rw [h, Bool.true_or]
    · rw [Option.ne_none_iff_isSome] at h
      rw [h, Bool.or_true]
  refine ⟨?_, ?_, ?_, mkScanLog (some p) p.code uid .already_used now, ?_, rfl, rfl⟩ <;>
    simp only [handleScan, hfind, hcond, if_true]

/-- Witness for C2: re-scanning the already-scanned fixture pass reports
`already_used` with its original scan timestamp and changes nothing. -/
theorem C2_already_used_scan_witness :
    (handleScan stateA passB.code ("op1") 9).2.status = ScanStatus.already_used ∧
    (handleScan stateA passB.code ("op1") 9).1.passes = stateA.passes ∧
    (handleScan stateA passB.code ("op1") 9).2.scannedAt = passB.scanned_at ∧
    ∃ log, (handleScan stateA passB.code ("op1") 9).1.scan_logs
        = stateA.scan_logs ++ [log] ∧
      log.status = ScanStatus.already_used ∧ log.pass_id = some passB.id :=
  C2_already_used_scan stateA passB ("op1") 9 (by decide) (Or.inl (by decide)) (by decide)

/-- Claim C3: for every scanned code string that matches no pass's `code`
field, the scan is classified `invalid`, no pass or event state is
mutated, and exactly one scan log entry is appended whose pass reference
is null. -/
theorem C3_invalid_scan (s : ScanState) (code uid : String) (now : Nat)
    (hnone : ∀ q ∈ s.passes, q.code ≠ code) :
    (handleScan s code uid now).2.status = ScanStatus.invalid ∧
    (handleScan s code uid now).1.passes = s.passes ∧
    (handleScan s code uid now).1.events = s.events ∧
    ∃ log, (handleScan s code uid now).1.scan_logs = s.scan_logs ++ [log] ∧
      log.pass_id = none ∧ log.status = ScanStatus.invalid := by
  have hfind : findPass s.passes code = none := by
    rw [findPass, List.find?_eq_none]
    intro x hx
    simp [hnone x hx]
  refine ⟨?_, ?_, ?_, mkScanLog none code uid .invalid now, ?_, rfl, rfl⟩ <;>
    simp only [handleScan, hfind]

/-- Witness for C3: scanning the unknown code of spec §8 scenario C against
the fixture store yields `invalid`, mutates nothing, and logs one entry
with a null pass reference. -/
theorem C3_invalid_scan_witness :
    (handleScan stateA ("ZZZZ-000000") ("op1") 9).2.status = ScanStatus.invalid ∧
    (handleScan stateA ("ZZZZ-000000") ("op1") 9).1.passes = stateA.passes ∧
    (handleScan stateA ("ZZZZ-000000") ("op1") 9).1.events = stateA.events ∧
    ∃ log, (handleScan stateA ("ZZZZ-000000") ("op1") 9).1.scan_logs
        = stateA.scan_logs ++ [log] ∧
      log.pass_id = none ∧ log.status = ScanStatus.invalid :=
  C3_invalid_scan stateA ("ZZZZ-000000") ("op1") 9 (by decide)

/-- Claim C4 (violated by the code, as spec §4.2 itself records): with one
`PENDING` pass, two scans of its code interleaved so that both reads
precede both writes are BOTH classified `valid` — two entry grants for one
pass — where the claim demands exactly one `valid` and one `already_used`.
A strictly sequential pair of scans of the same code does satisfy the
claimed outcome, confirming that the failure needs the interleaving. -/
theorem C4_concurrent_scans_both_valid :
    passA.used = false ∧ passA.scanned_at = none ∧
    (interleavedScans stateA passA.code ("op1") ("op2") 10 11).1 = ScanStatus.valid ∧
    (interleavedScans stateA passA.code ("op1") ("op2") 10 11).2.1 = ScanStatus.valid ∧
    (handleScan stateA passA.code ("op1") 10).2.status = ScanStatus.valid ∧
    (handleScan (handleScan stateA passA.code ("op1") 10).1 passA.code ("op2") 11).2.status
        = ScanStatus.already_used := by decide

/-- Claim C5 counterexample: the claim counts the generator's alphabet
`A-Z, 0-9, @#$%&*` as 43 symbols; the alphabet in the source has exactly
42 characters. -/
theorem C5_alphabet_not_43 :
    chars.data.length = 42 ∧ ¬ chars.data.length = 43 := by decide

/-- Claim C5 (amended: the alphabet has 42 symbols, not 43): for every
prefix and every choice of the six sampled indices (each below the
alphabet size, as `Math.floor(Math.random() * chars.length)` guarantees),
the generated code is the prefix, a dash, and exactly 6 characters each
drawn from the alphabet `A-Z 0-9 @#$%&*`. -/
theorem C5_code_format (pfx : String) (rs : List Nat) (h6 : rs.length = 6)
    (hlt : ∀ k ∈ rs, k < chars.length) :
    generateUniqueCode pfx rs = pfx ++ "-" ++ genCodeAux rs ∧
    (genCodeAux rs).data.length = 6 ∧
    (∀ c ∈ (genCodeAux rs).data, c ∈ chars.data) ∧
    chars.data.length = 42 := by
  obtain ⟨hlen, hmem⟩ := genCodeAux_spec rs hlt
  exact ⟨rfl, by rw [hlen, h6], hmem, by decide⟩

/-- Witness for C5: a concrete sample draw produces `EVTX-ABCDEF`, which
has the required shape. -/
theorem C5_code_format_witness :
    generateUniqueCode ("EVTX") [0, 1, 2, 3, 4, 5]
        = ("EVTX") ++ "-" ++ genCodeAux [0, 1, 2, 3, 4, 5] ∧
    (genCodeAux [0, 1, 2, 3, 4, 5]).data.length = 6 ∧
    (∀ c ∈ (genCodeAux [0, 1, 2, 3, 4, 5]).data, c ∈ chars.data) ∧
    chars.data.length = 42 :=
  C5_code_format ("EVTX") [0, 1, 2, 3, 4, 5] (by decide) (by decide)

/-- Claim C6: for every pass whose send attempt fails, the dispatcher
classifies the error message into `invalid` (recipient-related substrings)
or `failed` (all other errors), appends an email log entry with that
status and the raw error message, leaves the pass unchanged — so its
`sent_at` stays unset — and continues the loop with the remaining passes
(one log entry per pass, no pass dropped); in particular the simulated
"Address not found" failure classifies as `invalid`. -/
theorem C6_send_failure (send : Pass → Option String) (eventId subject : String)
    (now : Nat) (passes : List Pass) (p : Pass) (msg : String)
    (hp : p ∈ passes) (hfail : send p = some msg) :
    (classifyFailure msg = "invalid" ∨ classifyFailure msg = "failed") ∧
    p ∈ (handleSendEmails send eventId subject now passes).1 ∧
    (∃ log ∈ (handleSendEmails send eventId subject now passes).2,
        log.pass_id = p.id ∧ log.status = classifyFailure msg ∧
        log.error_message = some msg) ∧
    (handleSendEmails send eventId subject now passes).1.length = passes.length ∧
    (handleSendEmails send eventId subject now passes).2.length = passes.length ∧
    classifyFailure ("Address not found - Invalid email address") = "invalid" := by
  obtain ⟨h1, h2⟩ :=
    handleSendEmails_fail_mem send eventId subject now passes p msg hp hfail
  obtain ⟨l1, l2⟩ := handleSendEmails_lengths send eventId subject now passes
  refine ⟨?_, h1, h2, l1, l2, by decide⟩
  rw [classifyFailure]
  split
  · exact Or.inl rfl
  · exact Or.inr rfl

/-- Witness for C6 (spec §8 scenario B): dispatching to the fixture passes
with a mail capability that fails for Ana with "Address not found" leaves
Ana's pass untouched, logs an `invalid` entry carrying the raw message,
and still processes the remaining pass. -/
theorem C6_send_failure_witness :
    (classifyFailure ("Address not found - Invalid email address") = "invalid" ∨
      classifyFailure ("Address not found - Invalid email address") = "failed") ∧
    passA ∈ (handleSendEmails sendSim ("e1") ("Welcome") 20 [passA, passC]).1 ∧
    (∃ log ∈ (handleSendEmails sendSim ("e1") ("Welcome") 20 [passA, passC]).2,
        log.pass_id = passA.id ∧
        log.status = classifyFailure ("Address not found - Invalid email address") ∧
        log.error_message = some ("Address not found - Invalid email address")) ∧
    (handleSendEmails sendSim ("e1") ("Welcome") 20 [passA, passC]).1.length
        = ([passA, passC] : List Pass).length ∧
    (handleSendEmails sendSim ("e1") ("Welcome") 20 [passA, passC]).2.length
        = ([passA, passC] : List Pass).length ∧
    classifyFailure ("Address not found - Invalid email address") = "invalid" :=
  C6_send_failure sendSim ("e1") ("Welcome") 20 [passA, passC] passA
    ("Address not found - Invalid email address") (by decide) (by decide)

/-- Claim C7: re-running the invitation dispatcher only targets passes of
the selected event whose `sent_at` is null; a pass with `sent_at` set is
never in the dispatcher's work list, and every email log entry the
dispatcher appends references a pass from that (unsent, selected-event)
list — previously sent passes are never re-sent. -/
theorem C7_dispatcher_targets_unsent (sel : String) (allPasses : List Pass)
    (send : Pass → Option String) (subject : String) (now : Nat) :
    (∀ p ∈ fetchPasses sel allPasses, p.sent_at = none ∧ p.event_id = sel) ∧
    (∀ p : Pass, p.sent_at ≠ none → p ∉ fetchPasses sel allPasses) ∧
    (∀ log ∈ (handleSendEmails send sel subject now (fetchPasses sel allPasses)).2,
        ∃ p ∈ fetchPasses sel allPasses, log.pass_id = p.id) := by
  have hmem : ∀ p ∈ fetchPasses sel allPasses, p.sent_at = none ∧ p.event_id = sel := by
    intro p hp
    rw [fetchPasses] at hp
    have h2 := List.mem_filter.mp hp
    have h1 := List.mem_filter.mp h2.1
    refine ⟨Option.isNone_iff_eq_none.mp h2.2, ?_⟩
    simpa using h1.2
  refine ⟨hmem, ?_, ?_⟩
  · intro p hsent hp
    exact hsent (hmem p hp).1
  · intro log hlog
    exact handleSendEmails_log_src send sel subject now _ log hlog

/-- Witness for C7 at the fixture passes: only Ana's and Bob's unsent
passes of event e1 are targeted; Cyn's already-sent pass is excluded. -/
theorem C7_dispatcher_targets_unsent_witness :
    (∀ p ∈ fetchPasses ("e1") [passA, passB, passC],
        p.sent_at = none ∧ p.event_id = "e1") ∧
    (∀ p : Pass, p.sent_at ≠ none → p ∉ fetchPasses ("e1") [passA, passB, passC]) ∧
    (∀ log ∈ (handleSendEmails sendSim ("e1") ("Welcome") 20
        (fetchPasses ("e1") [passA, passB, passC])).2,
        ∃ p ∈ fetchPasses ("e1") [passA, passB, passC], log.pass_id = p.id) :=
  C7_dispatcher_targets_unsent ("e1") [passA, passB, passC] sendSim ("Welcome") 20

/-- Claim C8: deleting an event removes only the event record itself — the
`passes`, `scan_logs` and `email_logs` collections are untouched (so every
pass referencing the deleted event survives), and the surviving events are
exactly those with a different id: no cascade delete. -/
theorem C8_delete_event_no_cascade (st : Store) (eventId : String) :
    (handleDeleteEvent st eventId).passes = st.passes ∧
    (handleDeleteEvent st eventId).scan_logs = st.scan_logs ∧
    (handleDeleteEvent st eventId).email_logs = st.email_logs ∧
    (∀ e ∈ (handleDeleteEvent st eventId).events, e.id ≠ eventId) ∧
    (∀ e ∈ st.events, e.id ≠ eventId → e ∈ (handleDeleteEvent st eventId).events) := by
  refine ⟨rfl, rfl, rfl, ?_, ?_⟩
  · intro e he
    have h := List.mem_filter.mp he
    simpa using h.2
  · intro e he hne
    rw [handleDeleteEvent]
    exact List.mem_filter.mpr ⟨he, by simpa using hne⟩

/-- Witness for C8: deleting event e1 from the fixture store keeps all
three passes (two of which reference e1) and both log collections, keeps
e2, and removes e1. -/
theorem C8_delete_event_no_cascade_witness :
    (handleDeleteEvent storeA ("e1")).passes = storeA.passes ∧
    (handleDeleteEvent storeA ("e1")).scan_logs = storeA.scan_logs ∧
    (handleDeleteEvent storeA ("e1")).email_logs = storeA.email_logs ∧
    (∀ e ∈ (handleDeleteEvent storeA ("e1")).events, e.id ≠ "e1") ∧
    (∀ e ∈ storeA.events, e.id ≠ "e1" → e ∈ (handleDeleteEvent storeA ("e1")).events) :=
  C8_delete_event_no_cascade storeA ("e1")

/-- Claim C9 counterexample: the bulk-import line `", bob@x.com"` does not
miss an email — its parsed email piece is `"bob@x.com"` — yet it is
skipped because its name piece is empty, so it is not true that exactly
the lines missing an email are skipped: importing two lines where the
second has an email but no name creates only one pass. -/
theorem C9_name_missing_also_skipped :
    (((splitOnChar ',' (", bob@x.com" : String).data).map trimL).map
        (fun l => (⟨l⟩ : String))).getD 1 ("") = "bob@x.com" ∧
    parseLine (", bob@x.com") = none ∧
    handleBulkImport ("e1") (fun _ => ("CODE"))
        ("Ana, ana@x.com\n, bob@x.com")
      = [mkImportPass ("e1") ("CODE") ("Ana") ("ana@x.com")] := by decide

/-- Claim C9 (amended: lines missing a name or an email are skipped): in
manual bulk import, exactly the lines whose comma-split, trimmed first two
pieces are both nonempty produce a pass; each such line yields one new
pass in `PENDING` state (`used = false`, `sent_at` and `scanned_at` unset,
freshly generated code) for the selected event, and all other lines are
silently skipped. -/
theorem C9_bulk_import_pending (eventId : String) (gen : Nat → String)
    (text : String) :
    (handleBulkImport eventId gen text).length
        = (((splitOnChar '\n' (jsTrim text).data).map (fun l => (⟨l⟩ : String))).filter
            (fun l => (parseLine l).isSome)).length ∧
    (∀ p ∈ handleBulkImport eventId gen text,
        p.event_id = eventId ∧ p.used = false ∧ p.sent_at = none ∧
        p.scanned_at = none) ∧
    (∀ line ∈ (splitOnChar '\n' (jsTrim text).data).map (fun l => (⟨l⟩ : String)),
        ∀ n e, parseLine line = some (n, e) →
          ∃ p ∈ handleBulkImport eventId gen text,
            p.guest_name = n ∧ p.guest_email = e) := by
  refine ⟨bulkGo_length eventId gen 0 _, ?_, ?_⟩
  · intro p hp
    obtain ⟨h1, h2, h3, h4, _⟩ := bulkGo_mem eventId gen 0 _ p hp
    exact ⟨h1, h2, h3, h4⟩
  · intro line hline n e hparse
    exact bulkGo_parse eventId gen 0 _ line n e hline hparse

/-- Witness for C9: importing two parseable lines and one name-less line
creates exactly the two corresponding `PENDING` passes. -/
theorem C9_bulk_import_pending_witness :
    (handleBulkImport ("e1") (fun _ => ("CODE"))
        ("Ana, ana@x.com\n, bob@x.com\nCyn, cyn@x.com")).length
        = (((splitOnChar '\n'
              (jsTrim ("Ana, ana@x.com\n, bob@x.com\nCyn, cyn@x.com")).data).map
            (fun l => (⟨l⟩ : String))).filter
            (fun l => (parseLine l).isSome)).length ∧
    (∀ p ∈ handleBulkImport ("e1") (fun _ => ("CODE"))
        ("Ana, ana@x.com\n, bob@x.com\nCyn, cyn@x.com"),
        p.event_id = "e1" ∧ p.used = false ∧ p.sent_at = none ∧
        p.scanned_at = none) ∧
    (∀ line ∈ (splitOnChar '\n'
          (jsTrim ("Ana, ana@x.com\n, bob@x.com\nCyn, cyn@x.com")).data).map
        (fun l => (⟨l⟩ : String)),
        ∀ n e, parseLine line = some (n, e) →
          ∃ p ∈ handleBulkImport ("e1") (fun _ => ("CODE"))
              ("Ana, ana@x.com\n, bob@x.com\nCyn, cyn@x.com"),
            p.guest_name = n ∧ p.guest_email = e) :=
  C9_bulk_import_pending ("e1") (fun _ => ("CODE"))
    ("Ana, ana@x.com\n, bob@x.com\nCyn, cyn@x.com")

/-- Claim C10: when the dispatcher renders a message, only the first
occurrence of the `\x7bNAME\x7d` placeholder is substituted with the
guest's display name: for a body containing the placeholder at least
twice (it occurs once, and occurs again after the first occurrence), the
rendered output is the prefix before the first occurrence, then the name,
then the input's tail after the first occurrence kept verbatim — so the
placeholder still appears literally in the sent plain-text body and, for
any constant HTML template text `pre`/`post` around it, in the rendered
HTML. -/
theorem C10_replace_first_occurrence_only (message name pre post : String)
    (h1 : hasInfix ("{NAME}" : String).data message.data = true)
    (h2 : hasInfix ("{NAME}" : String).data
        (afterFirst ("{NAME}" : String).data message.data) = true) :
    (renderBody message name).data
        = beforeFirst ("{NAME}" : String).data message.data ++ name.data
            ++ afterFirst ("{NAME}" : String).data message.data ∧
    message.data
        = beforeFirst ("{NAME}" : String).data message.data
            ++ ("{NAME}" : String).data
            ++ afterFirst ("{NAME}" : String).data message.data ∧
    ∃ a b, pre.data ++ (renderBody message name).data ++ post.data
        = a ++ ("{NAME}" : String).data ++ b := by
  have hpat : (("{NAME}" : String).data : List Char) ≠ [] := by decide
  obtain ⟨hrepl, hdec⟩ :=
    replaceFirst_decomp ("{NAME}" : String).data name.data hpat message.data h1
  have hrb : (renderBody message name).data
      = beforeFirst ("{NAME}" : String).data message.data ++ name.data
          ++ afterFirst ("{NAME}" : String).data message.data := hrepl
  obtain ⟨a2, b2, hafter⟩ := hasInfix_decomp ("{NAME}" : String).data hpat _ h2
  refine ⟨hrb, hdec, ?_⟩
  refine ⟨pre.data ++ beforeFirst ("{NAME}" : String).data message.data
      ++ name.data ++ a2, b2 ++ post.data, ?_⟩
  rw [hrb, hafter]
  simp [List.append_assoc]

/-- Witness for C10: rendering a body holding the placeholder twice
substitutes only the first occurrence; the second survives verbatim in
the body and inside any surrounding template. -/
theorem C10_replace_first_occurrence_only_witness :
    (renderBody ("Hi {NAME}, bye {NAME}!") ("Ana")).data
        = beforeFirst ("{NAME}" : String).data ("Hi {NAME}, bye {NAME}!" : String).data
            ++ ("Ana" : String).data
            ++ afterFirst ("{NAME}" : String).data ("Hi {NAME}, bye {NAME}!" : String).data ∧
    ("Hi {NAME}, bye {NAME}!" : String).data
        = beforeFirst ("{NAME}" : String).data ("Hi {NAME}, bye {NAME}!" : String).data
            ++ ("{NAME}" : String).data
            ++ afterFirst ("{NAME}" : String).data ("Hi {NAME}, bye {NAME}!" : String).data ∧
    ∃ a b, ("<p>" : String).data
          ++ (renderBody ("Hi {NAME}, bye {NAME}!") ("Ana")).data
          ++ ("</p>" : String).data
        = a ++ ("{NAME}" : String).data ++ b :=
  C10_replace_first_occurrence_only ("Hi {NAME}, bye {NAME}!") ("Ana") ("<p>") ("</p>")
    (by decide) (by decide)

end EMS
